import Mathlib

/-!
Verification development for the dcompass DNS-router core.

The development shallowly embeds:
* the `dmatcher` domain-suffix trie (`Domain`) with `insert`, `insert_multi`
  and `matches`;
* the `droute` routing layer: `Filter`, `Upstreams` (configuration part) and
  `Router` with `new`, `check` and `resolve` from `droute/src/router.rs`.

The upstream network interaction of `Upstreams::resolve` is represented as a
state-passing oracle, and `Router::resolve` additionally records which upstream
tags it dispatched to and which diagnostics it emitted, so that claims about
"no upstream call" and "warning emitted" are directly statable.
-/

set_option autoImplicit false

namespace Droute

/-- Upstream/rule tags. The deployed tag type is string-like: equality,
hashing and cloning are all that is required of it. -/
abbrev Label := String

/-! ## Character-level string helpers

`String.splitOn` and `String.trim` from core are defined by well-founded
recursion on byte positions and do not reduce definitionally, so the label
and line splitting used by the matcher is given here as structural recursion
over the character list of the string. -/

/-- Split a character list at every occurrence of `sep`; `acc` holds the
characters of the current (reversed) segment. -/
def splitCharAux (sep : Char) : List Char → List Char → List String
  | [], acc => [String.mk acc.reverse]
  | c :: cs, acc =>
    if c = sep then String.mk acc.reverse :: splitCharAux sep cs []
    else splitCharAux sep cs (c :: acc)

/-- The dot-separated labels of a domain name, leftmost label first
(the splitting used by `dmatcher`: Rust `domain.split('.')`). -/
def splitLabels (s : String) : List String :=
  splitCharAux '.' s.data []

/-- The labels of a domain name ordered from the rightmost (root-most) label
to the leftmost, the order in which the trie is walked. -/
def revLabels (s : String) : List String :=
  (splitLabels s).reverse

/-- The lines of a text blob (split at every newline). -/
def splitLines (s : String) : List String :=
  splitCharAux '\x0a' s.data []

/-- Whitespace trimming on both ends, by structural recursion. -/
def strTrim (s : String) : String :=
  String.mk (((s.data.dropWhile Char.isWhitespace).reverse.dropWhile Char.isWhitespace).reverse)

/-- Joining labels back with dots; left inverse of `splitLabels`. -/
def joinLabels : List String → List Char
  | [] => []
  | [s] => s.data
  | s :: s2 :: rest => s.data ++ '.' :: joinLabels (s2 :: rest)

/-! ## DomainMatcher (`dmatcher::domain::Domain`)

Modelled from the spec: the `dmatcher` library source is not under `src/`
(only its benchmark is), so the matcher is built from §3/§4.1 of the spec:
a trie keyed by domain labels from the rightmost label down to the leftmost,
each node carrying only a terminal flag and its children keyed by label.
Children are represented as a lookup function; per §9 the externally
observable behavior of `insert`/`matches` is what must match. -/

/-- Modelled from the spec: a trie node of the `dmatcher` domain trie. -/
inductive DomainTrie : Type where
  | node (terminal : Bool) (children : String → Option DomainTrie) : DomainTrie

/-- The terminal flag of a node. -/
def DomainTrie.terminal : DomainTrie → Bool
  | .node t _ => t

/-- Child lookup by label. -/
def DomainTrie.children : DomainTrie → String → Option DomainTrie
  | .node _ cs => cs

/-- A node with no children and the terminal flag unset. -/
def emptyTrie : DomainTrie := .node false fun _ => none

/-- Modelled from the spec: walk/create nodes along the given label path and
mark the final node terminal. -/
def trieInsert : DomainTrie → List String → DomainTrie
  | .node _ cs, [] => .node true cs
  | .node t cs, l :: ls =>
    .node t fun k =>
      if k = l then some (trieInsert ((cs l).getD emptyTrie) ls) else cs k

/-- Modelled from the spec: walk the trie along the label path and report
whether a terminal node is crossed anywhere along the walk. -/
def trieMatches : DomainTrie → List String → Bool
  | t, [] => t.terminal
  | t, l :: ls =>
    t.terminal ||
      match t.children l with
      | none => false
      | some c => trieMatches c ls

/-- Whether the node reached by following exactly the given label path is
terminal (the path is an inserted pattern). -/
def isTerminalAt : DomainTrie → List String → Bool
  | t, [] => t.terminal
  | t, l :: ls =>
    match t.children l with
    | none => false
    | some c => isTerminalAt c ls

/-- Modelled from the spec: the `dmatcher` domain matcher. -/
structure Domain : Type where
  root : DomainTrie

/-- Modelled from the spec: `Domain::new`. -/
def Domain.new : Domain := ⟨emptyTrie⟩

/-- Modelled from the spec: `Domain::insert` — split the pattern into labels,
walk from the rightmost label to the leftmost and mark the final node. -/
def Domain.insert (d : Domain) (pat : String) : Domain :=
  ⟨trieInsert d.root (revLabels pat)⟩

/-- Modelled from the spec: `Domain::matches` — walk from the rightmost label
toward the leftmost; true as soon as a terminal node is reached. -/
def Domain.matches (d : Domain) (name : String) : Bool :=
  trieMatches d.root (revLabels name)

/-- The well-formed entries of a domain-list blob: one entry per line,
entries empty after trimming are skipped. -/
def wfLines (text : String) : List String :=
  ((splitLines text).map strTrim).filter fun l => l ≠ ""

/-- Modelled from the spec: `Domain::insert_multi` — split the blob into
lines, skip entries that are empty after trimming, insert each entry. -/
def Domain.insert_multi (d : Domain) (text : String) : Domain :=
  (wfLines text).foldl (fun acc l => acc.insert l) d

/-! ## DNS message model

`trust_dns_client::op::Message` and friends are an external collaborator;
per §6 of the spec the core treats a message as an opaque structured value
offering: transaction id, opcode, query count, iterable queries (each with
name and record type), appending an additional-section record, and building
a server-failure response from a given id/opcode. Only those capabilities
are modelled. Domain names are modelled by their UTF-8 text. -/

/-- Domain names (`trust_dns_client::rr::Name`), by their UTF-8 text. -/
abbrev DnsName := String

/-- DNS record types; only `A`/`AAAA` are inspected by the router. -/
inductive RecordType : Type where
  | A
  | AAAA
  | other (code : Nat)
deriving DecidableEq

/-- A question of a DNS message: queried name and record type. -/
structure Query : Type where
  name : DnsName
  query_type : RecordType
deriving DecidableEq

/-- The payload of an SOA record (`trust_dns_client::rr::rdata::soa::SOA`). -/
structure SOA : Type where
  mname : DnsName
  rname : DnsName
  serial : Nat
  refresh : Nat
  retry : Nat
  expire : Nat
  minimum : Nat
deriving DecidableEq

/-- Record data; the router only ever constructs the SOA variant. -/
inductive RData : Type where
  | SOA (soa : SOA)
  | A (addr : Nat)
  | other (code : Nat)
deriving DecidableEq

/-- A resource record: owner name, TTL and data. -/
structure Record : Type where
  name : DnsName
  ttl : Nat
  rdata : RData
deriving DecidableEq

/-- `Record::from_rdata`. -/
def Record.from_rdata (name : DnsName) (ttl : Nat) (rdata : RData) : Record :=
  ⟨name, ttl, rdata⟩

/-- Query/response marker of a message header. -/
inductive MessageType : Type where
  | Query
  | Response
deriving DecidableEq

/-- DNS response codes; the router only ever sets `ServFail`. -/
inductive ResponseCode : Type where
  | NoError
  | ServFail
  | other (code : Nat)
deriving DecidableEq

/-- A DNS message, with the fields the router reads or writes. Opcodes are
opaque to the router and modelled as numbers. -/
structure Message : Type where
  id : Nat
  op_code : Nat
  message_type : MessageType
  response_code : ResponseCode
  queries : List Query
  answers : List Record
  name_servers : List Record
  additionals : List Record
deriving DecidableEq

/-- `Message::new`: an empty query message. -/
def Message.new : Message :=
  { id := 0, op_code := 0, message_type := MessageType.Query,
    response_code := ResponseCode.NoError, queries := [], answers := [],
    name_servers := [], additionals := [] }

/-- `Message::query_count`: the number of queries the message carries. -/
def Message.query_count (m : Message) : Nat :=
  m.queries.length

/-- `Message::add_additional`: append a record to the additional section. -/
def Message.add_additional (m : Message) (r : Record) : Message :=
  { m with additionals := m.additionals ++ [r] }

/-- `Message::error_msg id op_code response_code`: a fresh response message
carrying the given transaction id, opcode and response code. -/
def Message.error_msg (id : Nat) (op_code : Nat) (rc : ResponseCode) : Message :=
  { Message.new with
    message_type := MessageType.Response, id := id,
    op_code := op_code, response_code := rc }

/-! ## Errors (`droute::error::DrouteError`) -/

/-- Modelled from the spec (§7): the droute error taxonomy visible to the
router — configuration errors (missing tag, hybrid cycle) and upstream
errors (timeout / transport failure, carrying the offending tag). -/
inductive DrouteError : Type where
  | MissingTag (tag : Label)
  | HybridRecursion (tag : Label)
  | UpstreamTimeout (tag : Label)
  | UpstreamTransport (tag : Label) (cause : Nat)
deriving DecidableEq

/-- Run a fallible check over each element in order, stopping at the first
error (the Rust `for x in xs { f(x)?; }` pattern). -/
def checkEach {α ε β : Type} (f : α → Except ε β) : List α → Except ε Unit
  | [] => Except.ok ()
  | a :: as =>
    match f a with
    | Except.error e => Except.error e
    | Except.ok _ => checkEach f as

/-! ## Filter (`droute::router::filter::Filter`)

Modelled from the spec: `filter.rs` is not under `src/`; §4.2 of the spec
describes it as an ordered sequence of rules — each a destination tag with a
compiled matcher — plus a default tag, with first-match-wins evaluation. -/

/-- Modelled from the spec: a rule — destination tag plus compiled matcher. -/
structure Rule : Type where
  dst : Label
  matcher : Domain

/-- Modelled from the spec: ordered rules plus the default tag. -/
structure Filter : Type where
  default_tag : Label
  rules : List Rule

/-- Modelled from the spec: `Filter::new` stores the rules in order
(matchers arrive already compiled from the rule sources). -/
def Filter.new (default_tag : Label) (rules : List Rule) : Filter :=
  ⟨default_tag, rules⟩

/-- Modelled from the spec: `Filter::get_upstream` — the tag of the first
rule whose matcher accepts the name, else the default tag. -/
def Filter.get_upstream (f : Filter) (name : String) : Label :=
  match f.rules.find? (fun ru => ru.matcher.matches name) with
  | some ru => ru.dst
  | none => f.default_tag

/-- Modelled from the spec: `Filter::get_dsts` — the set of distinct
destination tags referenced across all rules. -/
def Filter.get_dsts (f : Filter) : List Label :=
  (f.rules.map Rule.dst).dedup

/-! ## Upstreams (`droute::router::upstream::Upstreams`)

Modelled from the spec: `upstream.rs` is not under `src/`; §4.3 of the spec
describes the tag→upstream map, the `exists` lookup and the hybrid
consistency check (referenced tags exist; following hybrid references never
revisits a tag on the current path). The network part of
`Upstreams::resolve` is a boundary and is passed to the router as an
oracle (see `UpResolver`). -/

/-- Modelled from the spec: transport method of an upstream. -/
inductive UpstreamKind : Type where
  | Udp (addr : String)
  | Tcp (addr : String)
  | Tls (addr : String)
  | Https (addr : String)
  | Hybrid (tags : List Label)
deriving DecidableEq

/-- An upstream definition: tag, transport method, timeout (seconds). -/
structure Upstream : Type where
  tag : Label
  method : UpstreamKind
  timeout : Nat
deriving DecidableEq

/-- Modelled from the spec: the tag→upstream map plus the cache capacity. -/
structure Upstreams : Type where
  upstreams : List Upstream
  cache_size : Nat
deriving DecidableEq

/-- Modelled from the spec: `Upstreams::new` builds the map; no network. -/
def Upstreams.new (ups : List Upstream) (cache_size : Nat) : Upstreams :=
  ⟨ups, cache_size⟩

/-- Lookup of an upstream definition by tag. -/
def Upstreams.get (u : Upstreams) (tag : Label) : Option Upstream :=
  u.upstreams.find? fun up => up.tag = tag

/-- Modelled from the spec: `Upstreams::exists` — `Ok(true)` iff the tag is
a key of the map, a `MissingTag` configuration error otherwise. -/
def Upstreams.exists (u : Upstreams) (tag : Label) : Except DrouteError Bool :=
  if (u.get tag).isSome then Except.ok true else Except.error (DrouteError.MissingTag tag)

/-- Modelled from the spec: follow hybrid references from `tag`, failing on a
missing tag or when a tag already on the current path is revisited. The fuel
only bounds the recursion; `u.upstreams.length + 1` steps always suffice
because the path grows by a fresh existing tag at every step. -/
def Upstreams.traverse (u : Upstreams) : Nat → List Label → Label → Except DrouteError Unit
  | 0, _, tag => Except.error (DrouteError.HybridRecursion tag)
  | fuel + 1, path, tag =>
    if tag ∈ path then Except.error (DrouteError.HybridRecursion tag)
    else
      match u.get tag with
      | none => Except.error (DrouteError.MissingTag tag)
      | some up =>
        match up.method with
        | UpstreamKind.Hybrid tags =>
          checkEach (fun t2 => u.traverse fuel (tag :: path) t2) tags
        | _ => Except.ok ()

/-- Modelled from the spec: `Upstreams::hybrid_check` — for every
hybrid-variant upstream, check its reference closure. -/
def Upstreams.hybrid_check (u : Upstreams) : Except DrouteError Bool :=
  match checkEach (fun up =>
      match up.method with
      | UpstreamKind.Hybrid _ => u.traverse (u.upstreams.length + 1) [] up.tag
      | _ => Except.ok ()) u.upstreams with
  | Except.error e => Except.error e
  | Except.ok _ => Except.ok true

/-! ## Router (`droute/src/router.rs`) -/

/-- `MAX_TTL`: one day in seconds (router.rs line 41). -/
def MAX_TTL : Nat := 86400

/-- `SOA_RDATA`: the fixed negative-caching SOA payload (router.rs lines
44-56). -/
def SOA_RDATA : RData :=
  RData.SOA
    { mname := "a.gtld-servers.net", rname := "nstld.verisign-grs.com",
      serial := 1800, refresh := 1800, retry := 900,
      expire := 604800, minimum := 86400 }

/-- The `Router` struct: filter, IPv6-disable flag, upstreams (router.rs
lines 62-66). -/
structure Router : Type where
  filter : Filter
  disable_ipv6 : Bool
  upstreams : Upstreams

/-- The network/cache boundary of `Upstreams::resolve` (§4.3), as a
state-passing oracle over an abstract cache state `σ`: given a tag and the
query message it yields either a response message or an upstream error,
together with the updated cache state. -/
def UpResolver (σ : Type) : Type :=
  Label → Message → σ → Except DrouteError Message × σ

/-- Diagnostics emitted by `Router::resolve` via `warn!`. -/
inductive Warning : Type where
  | multiQuery
  | upstreamError
deriving DecidableEq

/-- The outcome of one `Router::resolve` call: the value returned to the
caller, the cache state after the call, the upstream tags dispatched to, and
the diagnostics emitted. -/
structure ResolveOut (σ : Type) : Type where
  result : Except DrouteError Message
  cache : σ
  calls : List Label
  warnings : List Warning

/-- The `Upstreams::resolve` call of router.rs lines 120-127: on success the
upstream response is returned as is; on error a `SERVFAIL` message carrying
the saved id/opcode is returned and a diagnostic is emitted. -/
def dispatch {σ : Type} (up : UpResolver σ) (tag : Label) (id op_code : Nat)
    (msg : Message) (cache : σ) : ResolveOut σ :=
  match up tag msg cache with
  | (Except.ok m, cache2) => ⟨Except.ok m, cache2, [tag], []⟩
  | (Except.error _, cache2) =>
    ⟨Except.ok (Message.error_msg id op_code ResponseCode.ServFail), cache2,
      [tag], [Warning.upstreamError]⟩

/-- `Router::resolve` (router.rs lines 101-128). `none` models the panic of
the `unwrap` at line 104; every returned `ResolveOut` carries the value the
Rust function returns together with the recorded effects. -/
def Router.resolve {σ : Type} (r : Router) (up : UpResolver σ) (msg : Message)
    (cache : σ) : Option (ResolveOut σ) :=
  let id := msg.id
  let op_code := msg.op_code
  if msg.query_count = 1 then
    match msg.queries.head? with
    | none => none
    | some q =>
      if q.query_type = RecordType.AAAA ∧ r.disable_ipv6 = true then
        some ⟨Except.ok (msg.add_additional
          (Record.from_rdata q.name MAX_TTL SOA_RDATA)), cache, [], []⟩
      else
        some (dispatch up (r.filter.get_upstream q.name) id op_code msg cache)
  else
    let out := dispatch up r.filter.default_tag id op_code msg cache
    some { out with warnings := Warning.multiQuery :: out.warnings }

/-- `Router::check` (router.rs lines 91-98): hybrid check, then existence of
every rule destination, then existence of the default tag. -/
def Router.check (r : Router) : Except DrouteError Bool :=
  match r.upstreams.hybrid_check with
  | Except.error e => Except.error e
  | Except.ok _ =>
    match checkEach r.upstreams.exists r.filter.get_dsts with
    | Except.error e => Except.error e
    | Except.ok _ =>
      match r.upstreams.exists r.filter.default_tag with
      | Except.error e => Except.error e
      | Except.ok _ => Except.ok true

/-- The router value `Router::new` builds before validating it. -/
def mkRouter (ups : List Upstream) (disable_ipv6 : Bool) (cache_size : Nat)
    (default_tag : Label) (rules : List Rule) : Router :=
  ⟨Filter.new default_tag rules, disable_ipv6, Upstreams.new ups cache_size⟩

/-- `Router::new` (router.rs lines 73-88): build the filter and the
upstreams, then run `check`; fail whenever `check` fails. -/
def Router.new (ups : List Upstream) (disable_ipv6 : Bool) (cache_size : Nat)
    (default_tag : Label) (rules : List Rule) : Except DrouteError Router :=
  let router := mkRouter ups disable_ipv6 cache_size default_tag rules
  match router.check with
  | Except.error e => Except.error e
  | Except.ok _ => Except.ok router

/-- The state a serving router carries across `resolve` calls: the router
itself (immutable after construction) and the response cache inside
`Upstreams` (the only mutable component, behind the `UpResolver` oracle). -/
structure ServerState (σ : Type) : Type where
  router : Router
  cache : σ

/-- One serving step: run `resolve` and carry the state to the next call. -/
def serveStep {σ : Type} (up : UpResolver σ) (s : ServerState σ) (msg : Message) :
    Option (Except DrouteError Message × ServerState σ) :=
  match s.router.resolve up msg s.cache with
  | none => none
  | some out => some (out.result, ⟨s.router, out.cache⟩)

/-! ## Concrete values used by the witnesses -/

/-- The upstream of the router.rs integration test. -/
def mockUpstream : Upstream :=
  ⟨"mock", UpstreamKind.Udp "127.0.0.1:53533", 10⟩

/-- A router with one UDP upstream `"mock"`, no rules, default tag `"mock"`
and `disable_ipv6 = true` (the configuration of the router.rs test). -/
def mockRouter : Router :=
  mkRouter [mockUpstream] true 0 "mock" []

/-- An oracle whose upstreams always fail. -/
def failUp : UpResolver Unit :=
  fun tag _ cache => (Except.error (DrouteError.UpstreamTimeout tag), cache)

/-- An oracle that always answers with the empty message. -/
def okUp : UpResolver Unit :=
  fun _ _ cache => (Except.ok Message.new, cache)

/-- A single AAAA query for `"www.apple.com"`. -/
def aaaaQuery : Query := ⟨"www.apple.com", RecordType.AAAA⟩

/-- A message carrying exactly one AAAA query. -/
def aaaaMsg : Message :=
  { Message.new with id := 53, queries := [aaaaQuery] }

/-- A message carrying exactly one A query. -/
def aQueryMsg : Message :=
  { Message.new with id := 53, queries := [⟨"www.apple.com", RecordType.A⟩] }

/-- A message carrying two AAAA queries. -/
def twoQueryMsg : Message :=
  { Message.new with id := 7, queries := [aaaaQuery, aaaaQuery] }

/-! ## Trie lemmas -/

theorem terminal_emptyTrie (p : List String) : isTerminalAt emptyTrie p = false := by
  cases p <;> rfl

theorem isTerminalAt_trieInsert_self (p : List String) (t : DomainTrie) :
    isTerminalAt (trieInsert t p) p = true := by
  induction p generalizing t with
  | nil => cases t with | node tm cs => rfl
  | cons l ls ih =>
    cases t with
    | node tm cs =>
      simp only [trieInsert, isTerminalAt, DomainTrie.children, if_pos rfl]
      exact ih _

theorem trieMatches_append (p rest : List String) (t : DomainTrie)
    (h : isTerminalAt t p = true) : trieMatches t (p ++ rest) = true := by
  induction p generalizing t with
  | nil =>
    simp only [isTerminalAt] at h
    cases rest with
    | nil => exact h
    | cons r rs => simp only [trieMatches, List.nil_append, h, Bool.true_or]
  | cons l ls ih =>
    simp only [isTerminalAt] at h
    cases hc : t.children l with
    | none => rw [hc] at h; exact absurd h (by simp)
    | some c =>
      rw [hc] at h
      simp only at h
      simp only [trieMatches, List.cons_append, hc, List.append_eq, ih c h, Bool.or_true]

theorem trieMatches_chain (p : List String) :
    ∀ n, trieMatches (trieInsert emptyTrie p) n = true → ∃ rest, n = p ++ rest := by
  induction p with
  | nil => exact fun n _ => ⟨n, rfl⟩
  | cons l ls ih =>
    intro n h
    cases n with
    | nil => exact absurd h (by simp [trieInsert, trieMatches, emptyTrie, DomainTrie.terminal])
    | cons m ns =>
      simp only [trieInsert, emptyTrie, trieMatches, DomainTrie.terminal,
        DomainTrie.children, Bool.false_or] at h
      by_cases hm : m = l
      · subst hm
        rw [if_pos rfl] at h
        obtain ⟨rest, hrest⟩ := ih ns h
        exact ⟨rest, by simp [hrest]⟩
      · rw [if_neg hm] at h
        exact absurd h (by simp)

theorem trieInsert_of_terminal (p : List String) (t : DomainTrie)
    (h : isTerminalAt t p = true) : trieInsert t p = t := by
  induction p generalizing t with
  | nil =>
    cases t with
    | node tm cs =>
      simp only [isTerminalAt, DomainTrie.terminal] at h
      simp [trieInsert, h]
  | cons l ls ih =>
    cases t with
    | node tm cs =>
      simp only [isTerminalAt, DomainTrie.children] at h
      cases hc : cs l with
      | none => rw [hc] at h; exact absurd h (by simp)
      | some c =>
        rw [hc] at h
        simp only [trieInsert, hc, Option.getD_some]
        congr 1
        funext k
        by_cases hk : k = l
        · subst hk; rw [if_pos rfl, ih c h, hc]
        · rw [if_neg hk]

theorem isTerminalAt_trieInsert_mono (q : List String) :
    ∀ (p : List String) (t : DomainTrie), isTerminalAt t p = true →
      isTerminalAt (trieInsert t q) p = true := by
  induction q with
  | nil =>
    intro p t h
    cases t with
    | node tm cs =>
      cases p with
      | nil => rfl
      | cons a ps => exact h
  | cons b qs ih =>
    intro p t h
    cases t with
    | node tm cs =>
      cases p with
      | nil => exact h
      | cons a ps =>
        simp only [isTerminalAt, DomainTrie.children] at h ⊢
        cases hca : cs a with
        | none => rw [hca] at h; exact absurd h (by simp)
        | some c =>
          rw [hca] at h
          simp only [trieInsert]
          by_cases hab : a = b
          · subst hab
            rw [if_pos rfl, hca, Option.getD_some]
            exact ih ps c h
          · rw [if_neg hab, hca]
            exact h

theorem isTerminalAt_trieInsert (q : List String) :
    ∀ (p : List String) (t : DomainTrie),
      isTerminalAt (trieInsert t q) p = true ↔ (p = q ∨ isTerminalAt t p = true) := by
  induction q with
  | nil =>
    intro p t
    cases t with
    | node tm cs =>
      cases p with
      | nil => simp [trieInsert, isTerminalAt, DomainTrie.terminal]
      | cons a ps =>
        simp only [trieInsert, isTerminalAt, DomainTrie.children]
        constructor
        · exact fun h => Or.inr h
        · rintro (h | h)
          · exact absurd h (by simp)
          · exact h
  | cons b qs ih =>
    intro p t
    cases t with
    | node tm cs =>
      cases p with
      | nil =>
        simp only [trieInsert, isTerminalAt, DomainTrie.terminal]
        constructor
        · exact fun h => Or.inr h
        · rintro (h | h)
          · exact absurd h (by simp)
          · exact h
      | cons a ps =>
        simp only [trieInsert, isTerminalAt, DomainTrie.children]
        by_cases hab : a = b
        · subst hab
          rw [if_pos rfl]
          cases hca : cs a with
          | none =>
            simp only [Option.getD_none, hca]
            rw [ih ps emptyTrie]
            simp [terminal_emptyTrie]
          | some c =>
            simp only [Option.getD_some, hca]
            rw [ih ps c]
            simp
        · rw [if_neg hab]
          simp [hab]

theorem isTerminalAt_insert_fold (ls : List String) :
    ∀ (d : Domain) (p : List String),
      isTerminalAt ((ls.foldl (fun acc l => acc.insert l) d).root) p = true ↔
        (p ∈ ls.map revLabels ∨ isTerminalAt d.root p = true) := by
  induction ls with
  | nil => simp
  | cons l ls ih =>
    intro d p
    simp only [List.foldl_cons, List.map_cons, List.mem_cons]
    rw [ih (d.insert l) p]
    show _ ↔ (p = revLabels l ∨ _) ∨ _
    rw [show (d.insert l).root = trieInsert d.root (revLabels l) from rfl,
      isTerminalAt_trieInsert (revLabels l) p d.root]
    tauto

theorem foldl_insert_id (ls : List String) :
    ∀ d : Domain, (∀ l ∈ ls, isTerminalAt d.root (revLabels l) = true) →
      ls.foldl (fun acc l => acc.insert l) d = d := by
  induction ls with
  | nil => intro d _; rfl
  | cons l ls ih =>
    intro d h
    have hhead : d.insert l = d := by
      cases d with
      | mk root =>
        show Domain.mk (trieInsert root (revLabels l)) = Domain.mk root
        rw [trieInsert_of_terminal _ _ (h l (by simp))]
    simp only [List.foldl_cons, hhead]
    exact ih d fun x hx => h x (by simp [hx])

/-! ## Label-splitting lemmas -/

theorem splitCharAux_ne_nil (sep : Char) (cs : List Char) :
    ∀ acc : List Char, splitCharAux sep cs acc ≠ [] := by
  induction cs with
  | nil => intro acc; simp [splitCharAux]
  | cons c cs ih =>
    intro acc
    simp only [splitCharAux]
    by_cases hc : c = sep
    · rw [if_pos hc]; simp
    · rw [if_neg hc]; exact ih _

theorem joinLabels_splitCharAux (cs : List Char) :
    ∀ acc : List Char, joinLabels (splitCharAux '.' cs acc) = acc.reverse ++ cs := by
  induction cs with
  | nil =>
    intro acc
    simp [splitCharAux, joinLabels]
  | cons c cs ih =>
    intro acc
    by_cases hc : c = '.'
    · simp only [splitCharAux, if_pos hc]
      cases hsp : splitCharAux '.' cs [] with
      | nil => exact absurd hsp (splitCharAux_ne_nil '.' cs [])
      | cons x xs =>
        have := ih []
        rw [hsp] at this
        simp only [joinLabels]
        rw [this]
        simp [hc]
    · simp only [splitCharAux, if_neg hc]
      rw [ih (c :: acc)]
      simp

theorem joinLabels_splitLabels (s : String) : joinLabels (splitLabels s) = s.data := by
  simpa using joinLabels_splitCharAux s.data []

theorem splitLabels_injective : Function.Injective splitLabels := by
  intro s1 s2 h
  have h2 : s1.data = s2.data := by
    rw [← joinLabels_splitLabels s1, ← joinLabels_splitLabels s2, h]
  cases s1 with
  | mk d1 =>
    cases s2 with
    | mk d2 => exact congrArg String.mk h2

theorem revLabels_injective : Function.Injective revLabels := by
  intro s1 s2 h
  exact splitLabels_injective (List.reverse_injective h)

/-! ## Routing-layer lemmas -/

theorem checkEach_ok_iff {α ε β : Type} (f : α → Except ε β) (l : List α) :
    checkEach f l = Except.ok () ↔ ∀ a ∈ l, ∃ b, f a = Except.ok b := by
  induction l with
  | nil => simp [checkEach]
  | cons a as ih =>
    simp only [checkEach]
    cases hfa : f a with
    | error e =>
      simp only [List.mem_cons]
      constructor
      · intro h; exact absurd h (by simp)
      · intro h
        obtain ⟨b, hb⟩ := h a (Or.inl rfl)
        rw [hfa] at hb
        exact absurd hb (by simp)
    | ok b =>
      rw [ih]
      constructor
      · intro h x hx
        rcases List.mem_cons.mp hx with hxa | hxs
        · exact ⟨b, hxa ▸ hfa⟩
        · exact h x hxs
      · intro h x hx
        exact h x (List.mem_cons_of_mem a hx)

theorem get_isSome_iff (u : Upstreams) (t : Label) :
    (u.get t).isSome = true ↔ t ∈ u.upstreams.map Upstream.tag := by
  unfold Upstreams.get
  induction u.upstreams with
  | nil => simp
  | cons up l ih =>
    simp only [List.find?_cons, List.map_cons, List.mem_cons]
    by_cases h : up.tag = t
    · simp [h]
    · have hd : (decide (up.tag = t)) = false := by simp [h]
      rw [hd, ih]
      simp only [iff_iff_implies_and_implies]
      constructor
      · exact fun hm => Or.inr hm
      · rintro (hm | hm)
        · exact absurd hm.symm h
        · exact hm

theorem exists_ok_iff (u : Upstreams) (t : Label) :
    (∃ b, u.exists t = Except.ok b) ↔ t ∈ u.upstreams.map Upstream.tag := by
  unfold Upstreams.exists
  by_cases h : (u.get t).isSome = true
  · rw [if_pos h]
    simp [(get_isSome_iff u t).mp h]
  · rw [if_neg h]
    simp only [iff_iff_implies_and_implies]
    constructor
    · rintro ⟨b, hb⟩; exact absurd hb (by simp)
    · intro hm; exact absurd ((get_isSome_iff u t).mpr hm) h

theorem exists_error_of_not_mem (u : Upstreams) (t : Label)
    (h : t ∉ u.upstreams.map Upstream.tag) :
    u.exists t = Except.error (DrouteError.MissingTag t) := by
  unfold Upstreams.exists
  rw [if_neg fun hs => h ((get_isSome_iff u t).mp hs)]

theorem hybrid_check_ok_true (u : Upstreams) (b : Bool)
    (h : u.hybrid_check = Except.ok b) : b = true := by
  unfold Upstreams.hybrid_check at h
  cases hc : checkEach (fun up =>
      match up.method with
      | UpstreamKind.Hybrid _ => u.traverse (u.upstreams.length + 1) [] up.tag
      | _ => Except.ok ()) u.upstreams with
  | error e => rw [hc] at h; exact absurd h (by simp)
  | ok v => rw [hc] at h; exact (Except.ok.injEq .. ▸ h).symm

theorem check_ok_true (r : Router) (b : Bool) (h : r.check = Except.ok b) : b = true := by
  unfold Router.check at h
  cases hh : r.upstreams.hybrid_check with
  | error e => rw [hh] at h; exact absurd h (by simp)
  | ok b1 =>
    rw [hh] at h
    cases hce : checkEach r.upstreams.exists r.filter.get_dsts with
    | error e => rw [hce] at h; exact absurd h (by simp)
    | ok v =>
      rw [hce] at h
      cases hde : r.upstreams.exists r.filter.default_tag with
      | error e => rw [hde] at h; exact absurd h (by simp)
      | ok b2 => rw [hde] at h; exact (Except.ok.injEq .. ▸ h).symm

theorem check_ok_iff (r : Router) :
    r.check = Except.ok true ↔
      (r.upstreams.hybrid_check = Except.ok true ∧
       (∀ t ∈ r.filter.get_dsts, t ∈ r.upstreams.upstreams.map Upstream.tag) ∧
       r.filter.default_tag ∈ r.upstreams.upstreams.map Upstream.tag) := by
  constructor
  · intro h
    unfold Router.check at h
    cases hh : r.upstreams.hybrid_check with
    | error e => rw [hh] at h; exact absurd h (by simp)
    | ok b1 =>
      rw [hh] at h
      cases hce : checkEach r.upstreams.exists r.filter.get_dsts with
      | error e => rw [hce] at h; exact absurd h (by simp)
      | ok v =>
        rw [hce] at h
        cases hde : r.upstreams.exists r.filter.default_tag with
        | error e => rw [hde] at h; exact absurd h (by simp)
        | ok b2 =>
          have hb1 : b1 = true := hybrid_check_ok_true _ _ hh
          subst hb1
          refine ⟨rfl, ?_, ?_⟩
          · intro t ht
            cases v
            obtain ⟨b3, hb3⟩ := (checkEach_ok_iff r.upstreams.exists r.filter.get_dsts).mp hce t ht
            exact (exists_ok_iff r.upstreams t).mp ⟨b3, hb3⟩
          · exact (exists_ok_iff r.upstreams r.filter.default_tag).mp ⟨b2, hde⟩
  · rintro ⟨hh, hall, hdefault⟩
    unfold Router.check
    rw [hh]
    have hce : checkEach r.upstreams.exists r.filter.get_dsts = Except.ok () := by
      rw [checkEach_ok_iff]
      intro t ht
      exact (exists_ok_iff r.upstreams t).mpr (hall t ht)
    rw [hce]
    obtain ⟨b, hb⟩ := (exists_ok_iff r.upstreams r.filter.default_tag).mpr hdefault
    rw [hb]

theorem router_new_ok_iff (ups : List Upstream) (dis : Bool) (cs : Nat)
    (dtag : Label) (rules : List Rule) :
    Router.new ups dis cs dtag rules = Except.ok (mkRouter ups dis cs dtag rules) ↔
      (mkRouter ups dis cs dtag rules).check = Except.ok true := by
  simp only [Router.new]
  cases hc : (mkRouter ups dis cs dtag rules).check with
  | error e => simp
  | ok b =>
    have hb : b = true := check_ok_true _ _ hc
    subst hb
    simp

/-- Case analysis of one `Router::resolve` call: either the IPv6 shortcut
fired (no upstream call, cache untouched), or exactly one upstream was
dispatched to and the outcome is the upstream response or a `SERVFAIL`. -/
theorem resolve_out_shape {σ : Type} (r : Router) (up : UpResolver σ)
    (msg : Message) (cache : σ) (out : ResolveOut σ)
    (h : r.resolve up msg cache = some out) :
    (∃ q, msg.queries.head? = some q ∧
      out = ⟨Except.ok (msg.add_additional (Record.from_rdata q.name MAX_TTL SOA_RDATA)),
        cache, [], []⟩) ∨
    (∃ tag, out.calls = [tag] ∧
      ((∃ m cc, up tag msg cache = (Except.ok m, cc) ∧
          out.result = Except.ok m ∧ out.cache = cc) ∨
       (∃ e cc, up tag msg cache = (Except.error e, cc) ∧
          out.result = Except.ok (Message.error_msg msg.id msg.op_code ResponseCode.ServFail) ∧
          out.cache = cc))) := by
  have hdisp : ∀ tag w, out = { dispatch up tag msg.id msg.op_code msg cache with
        warnings := w } →
      (∃ tag2, out.calls = [tag2] ∧
      ((∃ m cc, up tag2 msg cache = (Except.ok m, cc) ∧
          out.result = Except.ok m ∧ out.cache = cc) ∨
       (∃ e cc, up tag2 msg cache = (Except.error e, cc) ∧
          out.result = Except.ok (Message.error_msg msg.id msg.op_code ResponseCode.ServFail) ∧
          out.cache = cc))) := by
    intro tag w hout
    refine ⟨tag, ?_⟩
    unfold dispatch at hout
    cases hu : up tag msg cache with
    | mk res cc =>
      rw [hu] at hout
      cases res with
      | ok m =>
        simp only at hout
        rw [hout]
        exact ⟨rfl, Or.inl ⟨m, cc, rfl, rfl, rfl⟩⟩
      | error e =>
        simp only at hout
        rw [hout]
        exact ⟨rfl, Or.inr ⟨e, cc, rfl, rfl, rfl⟩⟩
  unfold Router.resolve at h
  by_cases hcount : msg.query_count = 1
  · rw [if_pos hcount] at h
    cases hq : msg.queries.head? with
    | none => rw [hq] at h; exact absurd h (by simp)
    | some q =>
      rw [hq] at h
      simp only at h
      by_cases hshort : q.query_type = RecordType.AAAA ∧ r.disable_ipv6 = true
      · rw [if_pos hshort] at h
        exact Or.inl ⟨q, rfl, (Option.some.inj h).symm⟩
      · rw [if_neg hshort] at h
        refine Or.inr (hdisp (r.filter.get_upstream q.name)
          (dispatch up (r.filter.get_upstream q.name) msg.id msg.op_code msg cache).warnings ?_)
        exact (Option.some.inj h).symm
  · rw [if_neg hcount] at h
    refine Or.inr (hdisp r.filter.default_tag
      (Warning.multiQuery ::
        (dispatch up r.filter.default_tag msg.id msg.op_code msg cache).warnings) ?_)
    exact (Option.some.inj h).symm

/-! ## Claim C5 -/

/-- C5: for every pattern `P` inserted into a matcher and every name `N`
that equals `P` or is `P` with one or more additional leftmost labels
prepended (label lists may contain multi-byte Unicode labels),
`matches N` is true; and for every name that is neither `P` nor a subdomain
of `P` at a label boundary (its label list does not end with `P`'s label
list), the matcher holding exactly the pattern `P` answers false. -/
theorem c5_domain_matcher_label_boundary (m : Domain) (P N Nneg : String)
    (pre : List String) (hpos : splitLabels N = pre ++ splitLabels P)
    (hneg : (splitLabels Nneg).drop ((splitLabels Nneg).length - (splitLabels P).length)
      ≠ splitLabels P) :
    (m.insert P).matches N = true ∧ (Domain.new.insert P).matches Nneg = false := by
  constructor
  · show trieMatches (trieInsert m.root (revLabels P)) (revLabels N) = true
    have hrev : revLabels N = revLabels P ++ pre.reverse := by
      simp [revLabels, hpos, List.reverse_append]
    rw [hrev]
    exact trieMatches_append _ _ _ (isTerminalAt_trieInsert_self _ _)
  · cases hmb : (Domain.new.insert P).matches Nneg with
    | false => rfl
    | true =>
      exfalso
      have h : trieMatches (trieInsert emptyTrie (revLabels P)) (revLabels Nneg) = true := hmb
      obtain ⟨rest, hrest⟩ := trieMatches_chain (revLabels P) (revLabels Nneg) h
      have h2 : splitLabels Nneg = rest.reverse ++ splitLabels P := by
        have h3 := congrArg List.reverse hrest
        simpa [revLabels, List.reverse_append] using h3
      apply hneg
      rw [h2, List.length_append, Nat.add_sub_cancel]
      exact List.drop_left _ _

/-- Witness for C5 at the spec's end-to-end example: pattern `"baidu.com"`,
positive name with a multi-byte label, negative name sharing only a string
suffix. -/
theorem c5_witness :
    (Domain.new.insert "baidu.com").matches "你好.store.www.baidu.com" = true ∧
    (Domain.new.insert "baidu.com").matches "baidu.com.evil.com" = false :=
  c5_domain_matcher_label_boundary Domain.new "baidu.com" "你好.store.www.baidu.com"
    "baidu.com.evil.com" ["你好", "store", "www"] (by decide) (by decide)

/-! ## Claim C7 -/

/-- C7: re-inserting an already-inserted pattern is a no-op; running
`insert_multi` twice on the same blob equals running it once; and the
patterns effective after `insert_multi` on a fresh matcher are exactly the
(trimmed, nonempty) lines of the blob, so K distinct well-formed lines give
exactly K effective patterns. -/
theorem c7_matcher_idempotent_pattern_count (d : Domain) (pat text : String)
    (hin : isTerminalAt d.root (revLabels pat) = true)
    (hnd : (wfLines text).Nodup) :
    d.insert pat = d
  ∧ (Domain.new.insert_multi text).insert_multi text = Domain.new.insert_multi text
  ∧ (∀ p, isTerminalAt (Domain.new.insert_multi text).root p = true ↔
      p ∈ (wfLines text).map revLabels)
  ∧ ((wfLines text).map revLabels).toFinset.card = (wfLines text).length := by
  have hchar : ∀ p, isTerminalAt (Domain.new.insert_multi text).root p = true ↔
      p ∈ (wfLines text).map revLabels := by
    intro p
    show isTerminalAt (((wfLines text).foldl (fun acc l => acc.insert l) Domain.new).root) p
      = true ↔ _
    rw [isTerminalAt_insert_fold]
    simp [Domain.new, terminal_emptyTrie]
  refine ⟨?_, ?_, hchar, ?_⟩
  · cases d with
    | mk root =>
      show Domain.mk (trieInsert root (revLabels pat)) = Domain.mk root
      rw [trieInsert_of_terminal _ _ hin]
  · show (wfLines text).foldl (fun acc l => acc.insert l) (Domain.new.insert_multi text) = _
    apply foldl_insert_id
    intro l hl
    exact (hchar (revLabels l)).mpr (List.mem_map_of_mem _ hl)
  · rw [List.toFinset_card_of_nodup (List.Nodup.map revLabels_injective hnd)]
    simp

/-- Witness for C7 on a two-line blob with a re-inserted pattern. -/
theorem c7_witness :
    ((Domain.new.insert "a.com").insert "a.com" = Domain.new.insert "a.com")
  ∧ ((Domain.new.insert_multi "a.com\nb.com").insert_multi "a.com\nb.com" =
      Domain.new.insert_multi "a.com\nb.com")
  ∧ (isTerminalAt (Domain.new.insert_multi "a.com\nb.com").root (revLabels "b.com") = true)
  ∧ (((wfLines "a.com\nb.com").map revLabels).toFinset.card =
      (wfLines "a.com\nb.com").length) := by
  have h := c7_matcher_idempotent_pattern_count (Domain.new.insert "a.com") "a.com"
    "a.com\nb.com" (by decide) (by decide)
  exact ⟨h.1, h.2.1, (h.2.2.1 (revLabels "b.com")).mpr (by decide), h.2.2.2⟩

/-! ## Claim C1 -/

/-- C1: with `disable_ipv6` set and a message carrying exactly one query of
type AAAA, `Router::resolve` returns the original message with exactly one
additional-section record appended for the queried name — TTL 86400 and the
fixed SOA payload (mname `a.gtld-servers.net`, rname
`nstld.verisign-grs.com`, serial 1800, refresh 1800, retry 900, expire
604800, minimum 86400) — and dispatches to no upstream. -/
theorem c1_ipv6_disabled_soa_synthesis {σ : Type} (r : Router) (up : UpResolver σ)
    (msg : Message) (cache : σ) (q : Query)
    (hq : msg.queries = [q]) (ht : q.query_type = RecordType.AAAA)
    (hd : r.disable_ipv6 = true) :
    r.resolve up msg cache = some ⟨Except.ok { msg with additionals := msg.additionals ++
      [Record.mk q.name 86400 (RData.SOA (SOA.mk "a.gtld-servers.net"
        "nstld.verisign-grs.com" 1800 1800 900 604800 86400))] },
      cache, [], []⟩ := by
  have hcount : msg.query_count = 1 := by rw [Message.query_count, hq]; rfl
  have hhead : msg.queries.head? = some q := by rw [hq]; rfl
  unfold Router.resolve
  rw [if_pos hcount, hhead]
  dsimp only
  rw [if_pos ⟨ht, hd⟩]
  rfl

/-- Witness for C1: the mock router, a failing oracle, one AAAA query. -/
theorem c1_witness :
    mockRouter.resolve failUp aaaaMsg () = some ⟨Except.ok { aaaaMsg with
      additionals := aaaaMsg.additionals ++
      [Record.mk aaaaQuery.name 86400 (RData.SOA (SOA.mk "a.gtld-servers.net"
        "nstld.verisign-grs.com" 1800 1800 900 604800 86400))] },
      (), [], []⟩ :=
  c1_ipv6_disabled_soa_synthesis mockRouter failUp aaaaMsg () aaaaQuery rfl rfl rfl

/-! ## Claim C2 -/

/-- C2: `Router::resolve` never surfaces an error to its caller: every
returned outcome is an `ok` message, and whenever the dispatched upstream
fails, the returned message is the synthetic server-failure response built
from the incoming message's transaction id and opcode. -/
theorem c2_resolve_total_availability {σ : Type} (r : Router) (up : UpResolver σ)
    (msg : Message) (cache : σ) (out : ResolveOut σ)
    (h : r.resolve up msg cache = some out) :
    (∃ m, out.result = Except.ok m) ∧
    (∀ tag e cc, out.calls = [tag] → up tag msg cache = (Except.error e, cc) →
      out.result = Except.ok (Message.error_msg msg.id msg.op_code ResponseCode.ServFail)) := by
  rcases resolve_out_shape r up msg cache out h with ⟨q, hhead, hout⟩ | ⟨tag, hcalls, hcase⟩
  · refine ⟨⟨_, by rw [hout]⟩, ?_⟩
    intro tag e cc hc hup
    rw [hout] at hc
    exact absurd hc (by simp)
  · rcases hcase with ⟨m, cc2, hu, hres, hcache⟩ | ⟨e2, cc2, hu, hres, hcache⟩
    · refine ⟨⟨m, hres⟩, ?_⟩
      intro tag2 e cc hc hup
      have htag : tag = tag2 := by
        rw [hcalls] at hc
        exact (List.cons.injEq .. ▸ hc).1
      subst htag
      rw [hu] at hup
      exact absurd hup (by simp)
    · refine ⟨⟨_, hres⟩, ?_⟩
      intro tag2 e cc hc hup
      exact hres

/-- Witness for C2: a failing oracle forces the SERVFAIL path on the mock
router. -/
theorem c2_witness :
    (∃ m, (⟨Except.ok (Message.error_msg 53 0 ResponseCode.ServFail), (), ["mock"],
        [Warning.upstreamError]⟩ : ResolveOut Unit).result = Except.ok m) ∧
    (⟨Except.ok (Message.error_msg 53 0 ResponseCode.ServFail), (), ["mock"],
        [Warning.upstreamError]⟩ : ResolveOut Unit).result =
      Except.ok (Message.error_msg aQueryMsg.id aQueryMsg.op_code ResponseCode.ServFail) := by
  have h := c2_resolve_total_availability mockRouter failUp aQueryMsg ()
    ⟨Except.ok (Message.error_msg 53 0 ResponseCode.ServFail), (), ["mock"],
      [Warning.upstreamError]⟩ (by rfl)
  exact ⟨h.1, h.2 "mock" (DrouteError.UpstreamTimeout "mock") () rfl rfl⟩

/-! ## Claim C3 -/

/-- C3: `Router::new` builds the filter and upstreams and then runs `check`
before returning — it propagates exactly `check`'s error and otherwise
returns the built router; it succeeds iff the hybrid check passes and every
rule destination tag and the default tag are keys of the upstream map; and
`check` tests the hybrid condition first, then the rule destinations, then
the default tag. -/
theorem c3_router_new_validates (ups : List Upstream) (dis : Bool) (cs : Nat)
    (dtag : Label) (rules : List Rule) :
    ((mkRouter ups dis cs dtag rules).check = Except.ok true →
      Router.new ups dis cs dtag rules = Except.ok (mkRouter ups dis cs dtag rules))
  ∧ (∀ e, (mkRouter ups dis cs dtag rules).check = Except.error e →
      Router.new ups dis cs dtag rules = Except.error e)
  ∧ (Router.new ups dis cs dtag rules = Except.ok (mkRouter ups dis cs dtag rules) ↔
      ((Upstreams.new ups cs).hybrid_check = Except.ok true ∧
       (∀ t ∈ (Filter.new dtag rules).get_dsts, t ∈ ups.map Upstream.tag) ∧
       dtag ∈ ups.map Upstream.tag))
  ∧ (∀ e, (Upstreams.new ups cs).hybrid_check = Except.error e →
      (mkRouter ups dis cs dtag rules).check = Except.error e)
  ∧ ((Upstreams.new ups cs).hybrid_check = Except.ok true →
     ∀ e, checkEach (Upstreams.new ups cs).exists (Filter.new dtag rules).get_dsts =
        Except.error e →
      (mkRouter ups dis cs dtag rules).check = Except.error e)
  ∧ ((Upstreams.new ups cs).hybrid_check = Except.ok true →
     checkEach (Upstreams.new ups cs).exists (Filter.new dtag rules).get_dsts =
        Except.ok () →
     dtag ∉ ups.map Upstream.tag →
      (mkRouter ups dis cs dtag rules).check =
        Except.error (DrouteError.MissingTag dtag)) := by
  refine ⟨?_, ?_, ?_, ?_, ?_, ?_⟩
  · intro h
    simp only [Router.new]
    rw [h]
  · intro e h
    simp only [Router.new]
    rw [h]
  · rw [router_new_ok_iff ups dis cs dtag rules, check_ok_iff]
    exact Iff.rfl
  · intro e h
    unfold Router.check
    simp only [mkRouter]
    rw [h]
  · intro hh e hce
    unfold Router.check
    simp only [mkRouter]
    rw [hh, hce]
  · intro hh hce hmem
    unfold Router.check
    simp only [mkRouter]
    rw [hh, hce, show (Filter.new dtag rules).default_tag = dtag from rfl,
      exists_error_of_not_mem (Upstreams.new ups cs) dtag hmem]

/-- Witness for C3: the mock configuration (one UDP upstream `"mock"`, no
rules, default `"mock"`) validates and `new` returns the router. -/
theorem c3_witness :
    Router.new [mockUpstream] true 0 "mock" [] =
      Except.ok (mkRouter [mockUpstream] true 0 "mock" []) :=
  (c3_router_new_validates [mockUpstream] true 0 "mock" []).1 (by rfl)

/-! ## Claim C4 -/

/-- C4: on a message whose query count is not one, `Router::resolve` routes
with the filter's default tag (for every rule set), the IPv6 shortcut is not
taken (exactly one upstream dispatch happens, even when `disable_ipv6` is
set and AAAA queries are present), and the multi/zero-query diagnostic is
emitted. -/
theorem c4_multi_query_default_tag {σ : Type} (r : Router) (up : UpResolver σ)
    (msg : Message) (cache : σ) (h : msg.query_count ≠ 1) :
    ∃ out, r.resolve up msg cache = some out ∧
      out.calls = [r.filter.default_tag] ∧
      Warning.multiQuery ∈ out.warnings ∧
      out.result = (match (up r.filter.default_tag msg cache).1 with
        | Except.ok m => Except.ok m
        | Except.error _ =>
          Except.ok (Message.error_msg msg.id msg.op_code ResponseCode.ServFail)) := by
  have hres : r.resolve up msg cache = some
      { dispatch up r.filter.default_tag msg.id msg.op_code msg cache with
        warnings := Warning.multiQuery ::
          (dispatch up r.filter.default_tag msg.id msg.op_code msg cache).warnings } := by
    unfold Router.resolve
    rw [if_neg h]
  refine ⟨_, hres, ?_, ?_, ?_⟩
  · unfold dispatch
    cases hu : up r.filter.default_tag msg cache with
    | mk res cc => cases res <;> rfl
  · exact List.mem_cons_self _ _
  · unfold dispatch
    cases hu : up r.filter.default_tag msg cache with
    | mk res cc => cases res <;> rfl

/-- Witness for C4: two AAAA queries with `disable_ipv6` set and a failing
oracle — the default tag is dispatched and SERVFAIL is returned. -/
theorem c4_witness :
    ∃ out, mockRouter.resolve failUp twoQueryMsg () = some out ∧
      out.calls = [mockRouter.filter.default_tag] ∧
      Warning.multiQuery ∈ out.warnings ∧
      out.result = (match (failUp mockRouter.filter.default_tag twoQueryMsg ()).1 with
        | Except.ok m => Except.ok m
        | Except.error _ =>
          Except.ok (Message.error_msg twoQueryMsg.id twoQueryMsg.op_code
            ResponseCode.ServFail)) :=
  c4_multi_query_default_tag mockRouter failUp twoQueryMsg () (by decide)

/-! ## Claim C6 -/

/-- C6: when the dispatched upstream succeeds, `Router::resolve` returns the
upstream response unchanged (the very message the upstream produced) and the
cache state the upstream call produced. -/
theorem c6_upstream_success_passthrough {σ : Type} (r : Router) (up : UpResolver σ)
    (msg : Message) (cache : σ) (out : ResolveOut σ) (tag : Label) (m : Message) (cc : σ)
    (h : r.resolve up msg cache = some out) (hcall : out.calls = [tag])
    (hup : up tag msg cache = (Except.ok m, cc)) :
    out.result = Except.ok m ∧ out.cache = cc := by
  rcases resolve_out_shape r up msg cache out h with ⟨q, hhead, hout⟩ | ⟨tag2, hcalls, hcase⟩
  · rw [hout] at hcall
    exact absurd hcall (by simp)
  · have htag : tag2 = tag := by
      rw [hcalls] at hcall
      exact (List.cons.injEq .. ▸ hcall).1
    subst htag
    rcases hcase with ⟨m2, cc2, hu, hres, hcache⟩ | ⟨e2, cc2, hu, hres, hcache⟩
    · rw [hup] at hu
      injection hu with h1 h2
      injection h1 with h3
      rw [hres, hcache, ← h3, ← h2]
      exact ⟨rfl, rfl⟩
    · rw [hup] at hu
      injection hu with h1 h2
      exact absurd h1 (by simp)

/-- Witness for C6: the succeeding oracle's answer is passed through by the
mock router. -/
theorem c6_witness :
    (⟨Except.ok Message.new, (), ["mock"], []⟩ : ResolveOut Unit).result =
      Except.ok Message.new ∧
    (⟨Except.ok Message.new, (), ["mock"], []⟩ : ResolveOut Unit).cache = () :=
  c6_upstream_success_passthrough mockRouter okUp aQueryMsg ()
    ⟨Except.ok Message.new, (), ["mock"], []⟩ "mock" Message.new () (by rfl) rfl rfl

/-! ## Claim C8 -/

/-- C8: a `resolve` call leaves the router itself — filter, flag, upstream
map — unchanged; the only state that can change across a serving step is the
cache, and only through the upstream-resolution boundary. -/
theorem c8_resolve_preserves_router {σ : Type} (up : UpResolver σ) (s : ServerState σ)
    (msg : Message) (res : Except DrouteError Message) (s2 : ServerState σ)
    (hstep : serveStep up s msg = some (res, s2)) :
    s2.router = s.router ∧
    (s2.cache = s.cache ∨ ∃ tag, s2.cache = (up tag msg s.cache).2) := by
  unfold serveStep at hstep
  cases hres : s.router.resolve up msg s.cache with
  | none => rw [hres] at hstep; exact absurd hstep (by simp)
  | some out =>
    rw [hres] at hstep
    simp only at hstep
    have h2 : s2 = ⟨s.router, out.cache⟩ := ((Prod.mk.injEq .. ▸ Option.some.inj hstep).2).symm
    subst h2
    refine ⟨rfl, ?_⟩
    show out.cache = s.cache ∨ ∃ tag, out.cache = (up tag msg s.cache).2
    rcases resolve_out_shape _ _ _ _ _ hres with ⟨q, hh, hout⟩ | ⟨tag, hcalls, hcase⟩
    · rw [hout]
      exact Or.inl rfl
    · rcases hcase with ⟨m, cc, hu, _, hcache⟩ | ⟨e, cc, hu, _, hcache⟩
      · exact Or.inr ⟨tag, by rw [hcache, hu]⟩
      · exact Or.inr ⟨tag, by rw [hcache, hu]⟩

/-- Witness for C8: one serving step on the mock router with the succeeding
oracle. -/
theorem c8_witness :
    (ServerState.mk mockRouter ()).router = (ServerState.mk mockRouter ()).router ∧
    ((ServerState.mk mockRouter ()).cache = (ServerState.mk mockRouter ()).cache ∨
      ∃ tag, (ServerState.mk mockRouter ()).cache = (okUp tag aQueryMsg ()).2) :=
  c8_resolve_preserves_router okUp ⟨mockRouter, ()⟩ aQueryMsg (Except.ok Message.new)
    ⟨mockRouter, ()⟩ (by rfl)

/-! ## Claim C9 -/

/-- C9: when the query count equals one, taking the first query succeeds and
`Router::resolve` cannot panic: the embedding never returns `none` (the
model of the `unwrap` failing) on such a message. -/
theorem c9_single_query_unwrap_safe {σ : Type} (r : Router) (up : UpResolver σ)
    (msg : Message) (cache : σ) (h : msg.query_count = 1) :
    (r.resolve up msg cache).isSome = true := by
  obtain ⟨q, qs, hqs⟩ : ∃ q qs, msg.queries = q :: qs := by
    cases hqs : msg.queries with
    | nil => rw [Message.query_count, hqs] at h; exact absurd h (by simp)
    | cons q qs => exact ⟨q, qs, rfl⟩
  unfold Router.resolve
  rw [if_pos h, hqs]
  simp only [List.head?_cons]
  by_cases hshort : q.query_type = RecordType.AAAA ∧ r.disable_ipv6 = true
  · rw [if_pos hshort]
    rfl
  · rw [if_neg hshort]
    rfl

/-- Witness for C9 on the single-query message. -/
theorem c9_witness : (mockRouter.resolve okUp aQueryMsg ()).isSome = true :=
  c9_single_query_unwrap_safe mockRouter okUp aQueryMsg () rfl

/-! ## Claim C10 -/

/-- C10: `Router::check` never returns `Ok(false)`: a successful check
always carries the value `true`. -/
theorem c10_check_ok_is_true (r : Router) (b : Bool) (h : r.check = Except.ok b) :
    b = true :=
  check_ok_true r b h

/-- Witness for C10: the mock router's check succeeds with `true`. -/
theorem c10_witness : mockRouter.check = Except.ok true ∧ true = true :=
  ⟨rfl, c10_check_ok_is_true mockRouter true rfl⟩

end Droute
